import Mathlib

/-!
# Verification of the BlueprintX core components

Shallow embedding of the step-orchestration engine
(`src/server/app/agents/orchestrator.py`), the similarity index
(`src/server/app/services/vectorstores/faiss_store.py`), the retrieval
pipeline (`src/server/app/services/ingestion/ingestion_pipeline.py`,
`src/server/app/agents/document_understanding.py`) and the chunker
(`src/server/app/utils/chunking.py`), together with proofs of the
specified properties.

Python `Dict[str, Any]` values are modelled by an abstract value type `V`;
a dict is an insertion-ordered association list `Dict V` with Python's
assignment semantics (replace in place if the key exists, else append).
Python exceptions are modelled with `Except String`, carrying `str(e)`.
Real time (`time.sleep`) is not modelled; the retry delay has no
observable effect on the data reasoned about here.
-/

namespace BlueprintX


/-- Insertion-ordered string-keyed dictionary, the model of Python's
`Dict[str, Any]` with values drawn from `V`. -/
abbrev Dict (V : Type) : Type := List (String × V)


/-- Python dict assignment `d[k] = v`: replace the value in place when the
key is present, otherwise append the new binding at the end. -/
def dictSet {V : Type} (d : Dict V) (k : String) (v : V) : Dict V :=
  match d with
  | [] => [(k, v)]
  | (k', v') :: rest =>
    if k' = k then (k', v) :: rest else (k', v') :: dictSet rest k v


/-- Python dict lookup `d[k]` / `k in d`, returning the value bound to the
first (unique) occurrence of `k`. -/
def dictGet {V : Type} (d : Dict V) (k : String) : Option V :=
  match d with
  | [] => none
  | (k', v') :: rest => if k' = k then some v' else dictGet rest k


/-! ## Orchestrator (`src/server/app/agents/orchestrator.py`) -/

/-- `ExecutionState` enum of `orchestrator.py`. -/
inductive ExecutionState : Type
  | pending
  | running
  | success
  | failed
  | retrying
deriving DecidableEq, Repr


/-- `OrchestratorStep`: a named agent with retry budget, retry delay and
optional failure handler.  The agent is `BaseAgent.execute`, a call that
takes the input dict and either returns an output or raises; a possibly
stateful Python agent is modelled by letting the outcome depend on the
0-indexed attempt number it is invoked at (within one `_execute_step`
cascade the orchestrator passes the same `input_data` to every attempt).
`retry_delay` (a blocking `time.sleep`) has no effect on data and carries
no information here beyond its value. -/
structure OrchestratorStep (V : Type) where
  name : String
  agent : Dict V → Nat → Except String V
  retries : Nat := 0
  retry_delay : Nat := 1
  on_failure : Option (Dict V → String → Except String V) := none


/-- `Orchestrator._execute_step(step, input_data, attempt)`: invoke the
agent; on an exception retry while `attempt < step.retries`, and once
retries are exhausted run `step.on_failure` if present (its return value
is returned as the step output; if the handler itself raises, the
handler's error is raised instead of the original).  The second component
instruments the execution with the number of times `step.agent.execute`
was invoked by this call (the Python code has no such counter; it is an
observation added by the embedding, not part of the state). -/
def executeStep {V : Type} (step : OrchestratorStep V) (input_data : Dict V)
    (attempt : Nat) : Except String V × Nat :=
  match step.agent input_data attempt with
  | .ok output => (.ok output, 1)
  | .error e =>
    if h : attempt < step.retries then
      let r := executeStep step input_data (attempt + 1)
      (r.1, r.2 + 1)
    else
      match step.on_failure with
      | some handler =>
        match handler input_data e with
        | .ok out => (.ok out, 1)
        | .error handler_error => (.error handler_error, 1)
      | none => (.error e, 1)
termination_by step.retries + 1 - attempt


/-- One record of the execution log (`step_log` in `Orchestrator.execute`).
`state` holds the enum value written as a string in Python; `attempts` is
the literal field of the dict (initialised to `0` and, as in the source,
never reassigned). -/
structure LogEntry (V : Type) where
  step_name : String
  step_index : Nat
  state : ExecutionState
  input : Dict V
  output : Option V
  error : Option String
  attempts : Nat


/-- The loop body of `Orchestrator.execute`: runs the remaining steps with
the current cumulative dict and the index of the next step.  Returns the
result of the run (the final cumulative dict, or the raised error), the
execution-log suffix produced by these steps, and — instrumentation, as in
`executeStep` — the per-executed-step agent-invocation counts.

Mirrors the Python `try/except/finally`: on success one log append (state
`SUCCESS`, output recorded, `cumulative_data[step.name] = output`); on
failure the same `step_log` dict is appended twice — once in the `except`
branch and once more by `finally` — with state `FAILED` and the error
string, and the exception is re-raised so no later step runs. -/
def executeLoop {V : Type} (steps : List (OrchestratorStep V))
    (cumulative_data : Dict V) (i : Nat) :
    Except String (Dict V) × List (LogEntry V) × List Nat :=
  match steps with
  | [] => (.ok cumulative_data, [], [])
  | step :: rest =>
    let base : LogEntry V :=
      { step_name := step.name, step_index := i, state := .pending,
        input := cumulative_data, output := none, error := none, attempts := 0 }
    match executeStep step cumulative_data 0 with
    | (.ok output, n) =>
      let entry := { base with state := .success, output := some output }
      let r := executeLoop rest (dictSet cumulative_data step.name output) (i + 1)
      (r.1, entry :: r.2.1, n :: r.2.2)
    | (.error e, n) =>
      let entry := { base with state := .failed, error := some e }
      (.error e, [entry, entry], [n])


/-- `Orchestrator.execute(initial_input)`: reset the log, seed the
cumulative dict with a copy of the initial input, and run all steps in
order. -/
def execute {V : Type} (steps : List (OrchestratorStep V))
    (initial_input : Dict V) :
    Except String (Dict V) × List (LogEntry V) × List Nat :=
  executeLoop steps initial_input 0


/-- What `_execute_step` returns once all retries are exhausted on an
always-failing agent: the handler's verdict on the last attempt's error,
or that error itself when there is no handler. -/
def exhaustedOutcome {V : Type} (step : OrchestratorStep V) (input_data : Dict V)
    (e : String) : Except String V :=
  match step.on_failure with
  | some handler =>
    match handler input_data e with
    | .ok out => .ok out
    | .error handler_error => .error handler_error
  | none => .error e


/-- Fixture for the retry-count law: a step with `retries = 2` whose agent
raises `"boom"` on every invocation and has no failure handler. -/
def stepAlwaysFailing : OrchestratorStep Unit :=
  { name := "A", agent := fun _ _ => .error "boom", retries := 2 }


/-- Fixture for the halt-on-failure scenario: step `A` with `retries = 0`,
no failure handler, and an agent that always raises. -/
def stepAFails : OrchestratorStep Unit :=
  { name := "A", agent := fun _ _ => .error "boom", retries := 0 }


/-- Fixture for the halt-on-failure scenario: step `B`, whose agent always
succeeds (it is never reached). -/
def stepBSucceeds : OrchestratorStep Unit :=
  { name := "B", agent := fun _ _ => .ok () }


/-- Fixture for the attempts-field observation: a single step whose agent
succeeds at the first invocation. -/
def stepSucceedsOnce : OrchestratorStep Unit :=
  { name := "S", agent := fun _ _ => .ok () }


/-- Fixture: a step whose agent always raises (`retries = 0`) and whose
failure handler substitutes the output `"substitute"`. -/
def stepHandled : OrchestratorStep String :=
  { name := "H", agent := fun _ _ => .error "boom", retries := 0,
    on_failure := some fun _ _ => .ok "substitute" }


/-- Fixture: a step with `retries = 1`, an always-raising agent, and a
failure handler that substitutes `"recovered"`. -/
def stepRecovered : OrchestratorStep String :=
  { name := "H", agent := fun _ _ => .error "boom", retries := 1,
    on_failure := some fun _ _ => .ok "recovered" }


/-- Fixture: a succeeding follow-up step named `"B"`. -/
def stepBString : OrchestratorStep String :=
  { name := "B", agent := fun _ _ => .ok "bout" }


/-! ## Similarity index (`src/server/app/services/vectorstores/faiss_store.py`)

Python floats are modelled as exact rationals `ℚ` (the distances and scores
the claims mention — `0.0`, `2.0`, `1/(1+d)` — are exactly representable;
no claim here depends on rounding).  `uuid4()` is modelled by an injected
generator `uuidGen : Nat → String` giving the identifier of the `i`-th
record of one `add_documents` call.  The external `faiss.IndexFlatL2`
library index is modelled from its documented semantics (which §4.2 of the
spec restates): it owns the stored vectors in insertion order, and
`search` performs an exhaustive exact scan returning the `k`
smallest-squared-L2-distance entries in ascending order of distance,
ties resolved by insertion position. -/

/-- Metadata values: Python strings and ints as they occur in the
per-chunk metadata dicts. -/
inductive MVal : Type
  | s : String → MVal
  | n : Nat → MVal
deriving DecidableEq, Repr


/-- A metadata record: a Python `Dict[str, Any]` of metadata values. -/
abbrev Meta : Type := Dict MVal


/-- `FAISSVectorStore` state: the fixed dimension, the vectors held by
the `IndexFlatL2` index (insertion order; `index.ntotal` is
`vectors.length`), and the side-car `metadata` list. -/
structure FAISSVectorStore where
  dimension : Nat
  vectors : List (List ℚ)
  metadata : List Meta


/-- `FAISSVectorStore.__init__`: a positive dimension gives the empty
store (Python `int` non-positivity collapses to `dimension = 0` on `Nat`). -/
def mkStore (dimension : Nat) : Except String FAISSVectorStore :=
  if dimension ≤ 0 then .error "Dimension must be a positive integer"
  else .ok { dimension := dimension, vectors := [], metadata := [] }


/-- `FAISSVectorStore.add_documents`: validate that the embeddings and
metadata lists have equal length, are non-empty, and that every embedding
has the store dimension; generate one fresh identifier per record, stamp
it into a copy of that record's metadata under the key `"document_id"`,
append vectors and metadata in lock-step, and return the identifiers in
insertion order (together with the grown store, which Python mutates in
place). -/
def add_documents (store : FAISSVectorStore) (embeddings : List (List ℚ))
    (metadata : List Meta) (uuidGen : Nat → String) :
    Except String (FAISSVectorStore × List String) :=
  if embeddings.length ≠ metadata.length then
    .error "Number of embeddings must match number of metadata entries"
  else if embeddings.length = 0 then
    .error "Cannot add empty list of documents"
  else if embeddings.any (fun e => e.length ≠ store.dimension) then
    .error "Embedding has wrong dimension"
  else
    let document_ids := (List.range embeddings.length).map uuidGen
    let enriched_metadata := (metadata.zip document_ids).map
      (fun p => dictSet p.1 "document_id" (MVal.s p.2))
    let store2 : FAISSVectorStore :=
      { dimension := store.dimension,
        vectors := store.vectors ++ embeddings,
        metadata := store.metadata ++ enriched_metadata }
    .ok (store2, document_ids)


/-- Exact squared Euclidean (L2) distance between two vectors, the metric
`IndexFlatL2` computes. -/
def sqDist (u v : List ℚ) : ℚ :=
  ((u.zip v).map (fun p => (p.1 - p.2) ^ 2)).sum


/-- Comparison on `(distance, position)` scan entries: ascending by
distance (the position is carried along; the stable sort below keeps ties
in insertion order, the deterministic tie order of the exact index). -/
def distLE (a b : ℚ × Nat) : Prop := a.1 ≤ b.1


instance : DecidableRel distLE := fun a b => inferInstanceAs (Decidable (a.1 ≤ b.1))


instance : IsTotal (ℚ × Nat) distLE := ⟨fun a b => le_total a.1 b.1⟩


instance : IsTrans (ℚ × Nat) distLE := ⟨fun _ _ _ h1 h2 => le_trans h1 h2⟩


/-- One entry of `similarity_search`'s result list. -/
structure SearchResult where
  document_id : MVal
  metadata : Meta
  distance : ℚ
  score : ℚ
deriving DecidableEq, Repr


/-- Build the result dict for the scan entry `(distance, idx)`. -/
def mkResult (store : FAISSVectorStore) (p : ℚ × Nat) : SearchResult :=
  { document_id := (dictGet (store.metadata.getD p.2 []) "document_id").getD (MVal.s ""),
    metadata := store.metadata.getD p.2 [],
    distance := p.1,
    score := 1 / (1 + p.1) }


/-- `FAISSVectorStore.similarity_search`: reject an empty index, a
non-positive `k`, and a query of the wrong dimension; clamp `k` to the
record count; scan every stored vector computing the exact squared L2
distance; return the `k` smallest entries ascending by distance, each
with its stored metadata, its `document_id`, and `score = 1/(1+distance)`.
(The `idx == -1` skip of the Python loop is dead with `k ≤ ntotal` and
has no counterpart here.) -/
def similarity_search (store : FAISSVectorStore) (query_embedding : List ℚ)
    (k : Nat) : Except String (List SearchResult) :=
  if store.vectors.length = 0 then .error "Cannot search empty index"
  else if k = 0 then .error "k must be a positive integer"
  else if query_embedding.length ≠ store.dimension then
    .error "Query embedding has wrong dimension"
  else
    let kc := min k store.vectors.length
    let scan := store.vectors.enum.map (fun p => (sqDist query_embedding p.2, p.1))
    let sorted := List.insertionSort distLE scan
    .ok ((sorted.take kc).map (mkResult store))


/-- `get_document_count`. -/
def get_document_count (store : FAISSVectorStore) : Nat := store.vectors.length


/-- `is_empty`. -/
def is_empty (store : FAISSVectorStore) : Bool := store.vectors.length = 0


/-! ## Chunker (`src/server/app/utils/chunking.py`)

The `tiktoken` tokenizer is an external, fixed vocabulary; it is modelled
as an abstract pair of total functions.  Token ids are `Nat`. -/

/-- A `tiktoken` encoding: `encode` the whole text to a token list,
`decode` a token slice back to text. -/
structure Tokenizer where
  encode : String → List Nat
  decode : List Nat → String


/-- The chunking `while` loop of `chunk_text`: at `start_idx < len(tokens)`
decode the window `tokens[start_idx : start_idx + chunk_size]`, advance by
`step`, and stop right after emitting the window whose end reaches or
passes the token count.  `step` is positive whenever the validated
arguments reach the loop (`chunk_overlap < chunk_size`); the positivity
proof only justifies termination. -/
def chunkLoop (tok : Tokenizer) (tokens : List Nat) (chunk_size step : Nat)
    (hstep : 0 < step) (start_idx : Nat) : List String :=
  if _h : start_idx < tokens.length then
    let chunk := tok.decode ((tokens.drop start_idx).take chunk_size)
    if start_idx + chunk_size ≥ tokens.length then [chunk]
    else chunk :: chunkLoop tok tokens chunk_size step hstep (start_idx + step)
  else []
termination_by tokens.length - start_idx
decreasing_by omega


/-- Python's blank test `not text.strip()`: true exactly when stripping
leading and trailing whitespace leaves nothing, i.e. the text is empty or
whitespace-only. -/
def isBlank (text : String) : Bool :=
  text.data.all (fun c => c.isWhitespace)


/-- `chunk_text(text, chunk_size, chunk_overlap)`: validate the
parameters, return no chunks for blank/whitespace-only text, return the
original untouched text as the single chunk when it tokenizes to at most
`chunk_size` tokens, and otherwise run the sliding-window loop with step
`chunk_size - chunk_overlap`.  (Python's `chunk_overlap < 0` check has no
`Nat` counterpart; the `chunk_size <= 0` and `chunk_overlap >= chunk_size`
checks are mirrored.) -/
def chunk_text (tok : Tokenizer) (text : String) (chunk_size : Nat := 512)
    (chunk_overlap : Nat := 50) : Except String (List String) :=
  if chunk_size ≤ 0 then .error "chunk_size must be greater than 0"
  else if h : chunk_overlap ≥ chunk_size then
    .error "chunk_overlap must be less than chunk_size"
  else if isBlank text then .ok []
  else
    let tokens := tok.encode text
    if tokens.length ≤ chunk_size then .ok [text]
    else .ok (chunkLoop tok tokens chunk_size (chunk_size - chunk_overlap)
      (by omega) 0)


/-! ## Retrieval pipeline
(`src/server/app/services/ingestion/ingestion_pipeline.py`) -/

/-- The statistics dict returned by `IngestionPipeline.ingest_document`. -/
structure IngestStats where
  document_id : String
  chunks_created : Nat
  embeddings_generated : Nat
  chunks_stored : Nat
  text_length : Nat
deriving DecidableEq, Repr


/-- `IngestionPipeline.ingest_document`: extract text (the extraction
collaborator is injected as `extract_text`, keyed by path and content
type), chunk it, short-circuit with a zero-count statistics record when no
chunks result, otherwise embed every chunk in one batched call
(`embedSvc`, the external embedding provider), attach per-chunk metadata
(`document_id`, `chunk_index`, `text`, `content_type`, `file_path`, plus
`additional_metadata` entries), and store everything via `add_documents`.
Returns the statistics together with the grown store (mutated in place in
Python) and the identifiers `add_documents` generated. -/
def ingest_document (store : FAISSVectorStore) (tok : Tokenizer)
    (embedSvc : List String → List (List ℚ)) (uuidGen : Nat → String)
    (extract_text : String → String → Except String String)
    (document_id : String) (file_path : String) (content_type : String)
    (additional_metadata : Option Meta)
    (chunk_size : Nat := 512) (chunk_overlap : Nat := 50) :
    Except String (IngestStats × FAISSVectorStore × List String) :=
  match extract_text file_path content_type with
  | .error e => .error e
  | .ok extracted_text =>
    let text_length := extracted_text.length
    match chunk_text tok extracted_text chunk_size chunk_overlap with
    | .error e => .error e
    | .ok text_chunks =>
      let chunks_created := text_chunks.length
      if chunks_created = 0 then
        .ok ({ document_id := document_id, chunks_created := 0,
               embeddings_generated := 0, chunks_stored := 0,
               text_length := text_length }, store, [])
      else
        let embeddings := embedSvc text_chunks
        let metadata_list := text_chunks.enum.map (fun p =>
          let chunk_metadata : Meta :=
            [("document_id", MVal.s document_id),
             ("chunk_index", MVal.n p.1),
             ("text", MVal.s p.2),
             ("content_type", MVal.s content_type),
             ("file_path", MVal.s file_path)]
          match additional_metadata with
          | some am => am.foldl (fun d kv => dictSet d kv.1 kv.2) chunk_metadata
          | none => chunk_metadata)
        match add_documents store embeddings metadata_list uuidGen with
        | .error e => .error e
        | .ok (store2, chunk_ids) =>
          .ok ({ document_id := document_id, chunks_created := chunks_created,
                 embeddings_generated := embeddings.length,
                 chunks_stored := chunk_ids.length,
                 text_length := text_length }, store2, chunk_ids)


/-! ## Document-understanding retrieval
(`src/server/app/agents/document_understanding.py`) -/

/-- The fields `_process` reads from `input_data` (after the Python
`.get` defaults have been applied). -/
structure DUInput where
  query : String
  k : Nat
deriving Repr


/-- The output dict of `DocumentUnderstandingAgent._process`: `content`
and, on the sentinel path only, a `warning`. -/
structure DUOutput where
  content : String
  warning : Option String := none
deriving DecidableEq, Repr


/-- `res["metadata"].get("text", "")`. -/
def metaText (m : Meta) : String :=
  match dictGet m "text" with
  | some (MVal.s t) => t
  | _ => ""


/-- The sentinel output `_process` returns when the formatted context is
empty. -/
def noContextOutput : DUOutput :=
  { content := "No relevant context found in the uploaded documents to perform a business architecture assessment.",
    warning := some "No relevant context found in vector store." }


/-- `DocumentUnderstandingAgent._process`: embed the query (the embedding
provider is injected as `embed`, standing for
`generate_embeddings([query])[0]`), run `similarity_search` (whose raised
errors propagate, as through `BaseAgent.execute`), format the retrieved
chunks into a context string, return the explicit no-context sentinel when
that string is empty, and otherwise ask the completion provider (`llm`)
for the assessment. -/
def duProcess (store : FAISSVectorStore) (embed : String → List ℚ)
    (llm : String → Except String String) (input : DUInput) :
    Except String DUOutput :=
  let query_embedding := embed input.query
  match similarity_search store query_embedding input.k with
  | .error e => .error e
  | .ok results =>
    let context_parts := results.enum.map (fun p =>
      "--- Context Chunk " ++ toString (p.1 + 1) ++ " ---\n" ++ metaText p.2.metadata)
    let context := String.intercalate "\n\n" context_parts
    if context = "" then .ok noContextOutput
    else
      match llm ("DOCUMENT CONTEXT:\n\n" ++ context ++ "\n\nBased on the above context, provide a comprehensive Current State Assessment for the Statement of Work.") with
      | .error e => .error e
      | .ok response => .ok { content := response }


/-- Fixture: an empty similarity index of dimension 3 (the store
`FAISSVectorStore(dimension=3)` starts with). -/
def emptyStore3 : FAISSVectorStore :=
  { dimension := 3, vectors := [], metadata := [] }


/-- Fixture: a tokenizer that encodes a string to one token per byte
(enough structure for small concrete runs). -/
def tokBytes : Tokenizer :=
  { encode := fun s => List.range s.length, decode := fun l => toString l.length }


/-- Fixture: an empty similarity index of dimension 2. -/
def emptyStore2 : FAISSVectorStore :=
  { dimension := 2, vectors := [], metadata := [] }


/-- Fixture: the dimension-3 index of the spec scenario after inserting
`[1,0,0]` and `[0,1,0]` (with empty caller metadata, ids `id-0`, `id-1`). -/
def scenarioStore : FAISSVectorStore :=
  { dimension := 3,
    vectors := [[1, 0, 0], [0, 1, 0]],
    metadata := [[("document_id", MVal.s "id-0")],
                 [("document_id", MVal.s "id-1")]] }


/-- Fixture: a tokenizer sending every text to 600 tokens (the scenario's
"600-token document"). -/
def tok600 : Tokenizer :=
  { encode := fun _ => List.range 600, decode := fun l => toString l.length }


/-! ## Properties -/

/-- Characterization of `_execute_step` on an agent that raises at every
attempt: starting from attempt `a ≤ retries` it invokes the agent exactly
`retries - a + 1` times and ends in the exhausted-retries outcome for the
final attempt's error. -/
theorem executeStep_alwaysFails {V : Type} (step : OrchestratorStep V)
    (input_data : Dict V) (err : Nat → String)
    (hfail : ∀ n, step.agent input_data n = .error (err n)) :
    ∀ fuel a, a ≤ step.retries → step.retries - a = fuel →
      executeStep step input_data a =
        (exhaustedOutcome step input_data (err step.retries), fuel + 1) := by
  intro fuel
  induction fuel with
  | zero =>
    intro a ha hfuel
    have haeq : a = step.retries := by omega
    unfold executeStep
    rw [hfail a]
    have hnotlt : ¬ a < step.retries := by omega
    simp only [dif_neg hnotlt]
    subst haeq
    unfold exhaustedOutcome
    cases step.on_failure with
    | none => rfl
    | some handler =>
      simp only
      cases handler input_data (err step.retries) <;> rfl
  | succ n ih =>
    intro a ha hfuel
    have hlt : a < step.retries := by omega
    unfold executeStep
    rw [hfail a]
    simp only [dif_pos hlt]
    have := ih (a + 1) (by omega) (by omega)
    simp only [this]


/-- C1: Retry count law — a Step with retry budget `R = step.retries`
whose Agent raises on every invocation has its Agent invoked exactly
`R + 1` times by `_execute_step` (the first attempt plus `R` retries, each
retry preceded by the blocking `retry_delay` sleep, which is not a data
effect), and when the Step has no failure handler the step ends in its
failure outcome: the last attempt's error is raised. -/
theorem retry_count_law {V : Type} (step : OrchestratorStep V)
    (input_data : Dict V) (err : Nat → String)
    (hfail : ∀ n, step.agent input_data n = .error (err n)) :
    (executeStep step input_data 0).2 = step.retries + 1 ∧
      (step.on_failure = none →
        (executeStep step input_data 0).1 = .error (err step.retries)) := by
  have h := executeStep_alwaysFails step input_data err hfail step.retries 0
    (Nat.zero_le _) (by omega)
  rw [h]
  refine ⟨rfl, fun hnone => ?_⟩
  unfold exhaustedOutcome
  rw [hnone]


/-- Concrete instance of the retry-count law: `retries = 2` gives exactly
`3` agent invocations and the step fails with the agent's error. -/
theorem retry_count_law_witness :
    (executeStep stepAlwaysFailing [] 0).2 = 2 + 1 ∧
      (stepAlwaysFailing.on_failure = none →
        (executeStep stepAlwaysFailing [] 0).1 = .error "boom") :=
  retry_count_law stepAlwaysFailing [] (fun _ => "boom") (fun _ => rfl)


/-- C2 (evaluation at the failing input): for `steps = [A, B]` with `A`
failing immediately (`retries = 0`, no handler), `execute {}` raises and
step `B` never appears in the log, but the log holds TWO identical
`FAILED` entries for `A`, not one: `Orchestrator.execute` appends
`step_log` in the `except` branch and then appends the same dict again in
the `finally` block. -/
theorem failed_step_logged_twice :
    (execute [stepAFails, stepBSucceeds] []).1 = .error "boom" ∧
      ((execute [stepAFails, stepBSucceeds] []).2.1.map
          fun en => (en.step_name, en.state)) =
        [("A", .failed), ("A", .failed)] ∧
      "B" ∉ (execute [stepAFails, stepBSucceeds] []).2.1.map
        (fun en => en.step_name) := by
  have h : execute [stepAFails, stepBSucceeds] [] =
      (.error "boom",
       [{ step_name := "A", step_index := 0, state := .failed, input := [],
          output := none, error := some "boom", attempts := 0 },
        { step_name := "A", step_index := 0, state := .failed, input := [],
          output := none, error := some "boom", attempts := 0 }], [1]) := by
    unfold execute executeLoop executeStep
    rfl
  rw [h]
  refine ⟨rfl, rfl, by simp⟩


/-- C3 (evaluation at the failing input): in a run of one step whose agent
succeeds immediately, the agent is invoked once but the log entry records
`attempts = 0`: `Orchestrator.execute` initialises `"attempts": 0` in
`step_log` and no code path ever reassigns it, so the recorded value never
equals the number of agent invocations. -/
theorem attempts_never_updated :
    ((execute [stepSucceedsOnce] []).2.1.map fun en => en.attempts) = [0] ∧
      (execute [stepSucceedsOnce] []).2.2 = [1] ∧ (0 : Nat) ≠ 1 := by
  have h : execute [stepSucceedsOnce] [] =
      (.ok [("S", ())],
       [{ step_name := "S", step_index := 0, state := .success, input := [],
          output := some (), error := none, attempts := 0 }], [1]) := by
    unfold execute executeLoop executeStep
    rfl
  rw [h]
  exact ⟨rfl, rfl, by omega⟩


/-- Setting a key makes it look up to the new value. -/
theorem dictGet_dictSet_self {V : Type} (d : Dict V) (k : String) (v : V) :
    dictGet (dictSet d k v) k = some v := by
  induction d with
  | nil => simp [dictSet, dictGet]
  | cons kv rest ih =>
    obtain ⟨k', v'⟩ := kv
    by_cases h : k' = k
    · simp [dictSet, dictGet, h]
    · simp [dictSet, dictGet, h, ih]


/-- Setting one key leaves every other key's binding unchanged. -/
theorem dictGet_dictSet_ne {V : Type} (d : Dict V) (k k' : String) (v : V)
    (h : k' ≠ k) : dictGet (dictSet d k v) k' = dictGet d k' := by
  induction d with
  | nil => simp [dictSet, dictGet, Ne.symm h]
  | cons kv rest ih =>
    obtain ⟨k0, v0⟩ := kv
    by_cases h0 : k0 = k
    · subst h0
      simp [dictSet, dictGet, Ne.symm h]
    · simp [dictSet, dictGet, h0, ih]


/-- A completed loop never loses a binding whose key is not the name of
any of the remaining steps: later steps only set their own names. -/
theorem executeLoop_ok_lookup {V : Type} (rest : List (OrchestratorStep V)) :
    ∀ c i final, (executeLoop rest c i).1 = .ok final →
      ∀ key, key ∉ rest.map (fun s => s.name) →
        dictGet final key = dictGet c key := by
  induction rest with
  | nil =>
    intro c i final h key _
    unfold executeLoop at h
    cases h
    rfl
  | cons step rest ih =>
    intro c i final h key hkey
    simp only [List.map_cons, List.mem_cons] at hkey
    push_neg at hkey
    unfold executeLoop at h
    cases hstep : executeStep step c 0 with
    | mk r n =>
      rw [hstep] at h
      cases r with
      | ok output =>
        simp only at h
        rw [ih _ _ _ h key hkey.2]
        exact dictGet_dictSet_ne c step.name key output hkey.1
      | error e => simp at h


/-- Shared characterization: when the head step's agent raises at every
attempt and its failure handler returns `out`, `executeLoop` records a
`SUCCESS` log entry carrying `out`, merges `out` under the step's name,
and continues into the remaining steps. -/
theorem executeLoop_handler_ok {V : Type} (step : OrchestratorStep V)
    (rest : List (OrchestratorStep V)) (c : Dict V) (i : Nat)
    (err : Nat → String) (handler : Dict V → String → Except String V)
    (hh : step.on_failure = some handler)
    (hfail : ∀ n, step.agent c n = .error (err n))
    (out : V) (hout : handler c (err step.retries) = .ok out) :
    executeLoop (step :: rest) c i =
      ((executeLoop rest (dictSet c step.name out) (i + 1)).1,
       { step_name := step.name, step_index := i, state := .success,
         input := c, output := some out, error := none, attempts := 0 } ::
         (executeLoop rest (dictSet c step.name out) (i + 1)).2.1,
       (step.retries + 1) ::
         (executeLoop rest (dictSet c step.name out) (i + 1)).2.2) := by
  have hstep : executeStep step c 0 = (.ok out, step.retries + 1) := by
    rw [executeStep_alwaysFails step c err hfail step.retries 0
      (Nat.zero_le _) (by omega)]
    unfold exhaustedOutcome
    simp only [hh, hout]
  conv_lhs => unfold executeLoop
  rw [hstep]


/-- Shared characterization: when the head step's agent raises at every
attempt and its failure handler itself raises `he`, `executeLoop` raises
`he`, appends the same `FAILED` entry twice, and runs no later step. -/
theorem executeLoop_handler_error {V : Type} (step : OrchestratorStep V)
    (rest : List (OrchestratorStep V)) (c : Dict V) (i : Nat)
    (err : Nat → String) (handler : Dict V → String → Except String V)
    (hh : step.on_failure = some handler)
    (hfail : ∀ n, step.agent c n = .error (err n))
    (he : String) (hout : handler c (err step.retries) = .error he) :
    executeLoop (step :: rest) c i =
      (.error he,
       [{ step_name := step.name, step_index := i, state := .failed,
          input := c, output := none, error := some he, attempts := 0 },
        { step_name := step.name, step_index := i, state := .failed,
          input := c, output := none, error := some he, attempts := 0 }],
       [step.retries + 1]) := by
  have hstep : executeStep step c 0 = (.error he, step.retries + 1) := by
    rw [executeStep_alwaysFails step c err hfail step.retries 0
      (Nat.zero_le _) (by omega)]
    unfold exhaustedOutcome
    simp only [hh, hout]
  conv_lhs => unfold executeLoop
  rw [hstep]


/-- C4 counterexample: when `stepHandled`'s handler substitutes an output,
the run proceeds (`execute` returns the substituted output under the
step's name), but the execution-log entry records state `SUCCESS`, not the
raw failure state `FAILED` the claim asserts: `_execute_step` returns the
handler's value normally, so `Orchestrator.execute` takes the success
branch of its `try`. -/
theorem handler_logged_as_success_counterexample :
    (execute [stepHandled] []).1 = .ok [("H", "substitute")] ∧
      ((execute [stepHandled] []).2.1.map fun en => en.state) =
        [ExecutionState.success] ∧
      ExecutionState.success ≠ ExecutionState.failed := by
  have h : execute [stepHandled] [] =
      (.ok [("H", "substitute")],
       [{ step_name := "H", step_index := 0, state := .success, input := [],
          output := some "substitute", error := none, attempts := 0 }],
       [1]) := by
    unfold execute executeLoop executeStep
    rfl
  rw [h]
  exact ⟨rfl, rfl, by simp⟩


/-- C4 (amended): when a Step exhausts its retries and its `on_failure`
handler returns normally, the Step's execution-log entry records state
`SUCCESS` with the handler's value as the recorded output — not the raw
failure state — and the run proceeds with the substituted output exactly
as if the step had succeeded. -/
theorem handler_path_records_success {V : Type} (step : OrchestratorStep V)
    (rest : List (OrchestratorStep V)) (init : Dict V) (err : Nat → String)
    (handler : Dict V → String → Except String V)
    (hh : step.on_failure = some handler)
    (hfail : ∀ n, step.agent init n = .error (err n))
    (out : V) (hout : handler init (err step.retries) = .ok out) :
    (execute (step :: rest) init).2.1 =
      { step_name := step.name, step_index := 0, state := .success,
        input := init, output := some out, error := none, attempts := 0 } ::
        (executeLoop rest (dictSet init step.name out) 1).2.1 ∧
      (execute (step :: rest) init).1 =
        (executeLoop rest (dictSet init step.name out) 1).1 := by
  unfold execute
  rw [executeLoop_handler_ok step rest init 0 err handler hh hfail out hout]
  exact ⟨rfl, rfl⟩


/-- Concrete instance of the amended C4: the handled step's log entry is
the `SUCCESS` entry carrying `"substitute"`, and the run result is the
result of the (empty) remaining step list. -/
theorem handler_path_records_success_witness :
    (execute [stepHandled] []).2.1 =
      { step_name := "H", step_index := 0, state := .success, input := [],
        output := some "substitute", error := none, attempts := 0 } ::
        (executeLoop ([] : List (OrchestratorStep String))
          (dictSet [] "H" "substitute") 1).2.1 ∧
      (execute [stepHandled] []).1 =
        (executeLoop ([] : List (OrchestratorStep String))
          (dictSet [] "H" "substitute") 1).1 :=
  handler_path_records_success stepHandled [] [] (fun _ => "boom")
    (fun _ _ => .ok "substitute") rfl (fun _ => rfl) "substitute" rfl


/-- C5: Failure-handler substitution — after the Step's Agent fails on all
`retries + 1` attempts, (i) if the handler returns `out` then `out`
becomes the Step's output, the run continues into the remaining steps,
and whenever the run completes (and no later step reuses the name) `out`
sits under the Step's name in the final Cumulative Result Map; (ii) if the
handler itself raises `he`, the new error `he` replaces the original and
the run halts with no later step executed. -/
theorem failure_handler_substitution {V : Type} (step : OrchestratorStep V)
    (rest : List (OrchestratorStep V)) (init : Dict V) (err : Nat → String)
    (handler : Dict V → String → Except String V)
    (hh : step.on_failure = some handler)
    (hfail : ∀ n, step.agent init n = .error (err n)) :
    (∀ out, handler init (err step.retries) = .ok out →
      executeStep step init 0 = (.ok out, step.retries + 1) ∧
        (execute (step :: rest) init).1 =
          (executeLoop rest (dictSet init step.name out) 1).1 ∧
        ∀ final, (execute (step :: rest) init).1 = .ok final →
          step.name ∉ rest.map (fun s => s.name) →
          dictGet final step.name = some out) ∧
    (∀ he, handler init (err step.retries) = .error he →
      execute (step :: rest) init =
        (.error he,
         [{ step_name := step.name, step_index := 0, state := .failed,
            input := init, output := none, error := some he, attempts := 0 },
          { step_name := step.name, step_index := 0, state := .failed,
            input := init, output := none, error := some he, attempts := 0 }],
         [step.retries + 1])) := by
  constructor
  · intro out hout
    have hstep : executeStep step init 0 = (.ok out, step.retries + 1) := by
      rw [executeStep_alwaysFails step init err hfail step.retries 0
        (Nat.zero_le _) (by omega)]
      unfold exhaustedOutcome
      simp only [hh, hout]
    have hrun := executeLoop_handler_ok step rest init 0 err handler hh hfail out hout
    refine ⟨hstep, ?_, ?_⟩
    · unfold execute
      rw [hrun]
    · intro final hfinal hname
      unfold execute at hfinal
      rw [hrun] at hfinal
      have := executeLoop_ok_lookup rest (dictSet init step.name out) 1 final
        hfinal step.name hname
      rw [this, dictGet_dictSet_self]
  · intro he hout
    unfold execute
    exact executeLoop_handler_error step rest init 0 err handler hh hfail he hout


/-- Concrete instance of C5: with `stepRecovered` (two failing attempts,
handler substitutes `"recovered"`) followed by `stepBString`, the final
Cumulative Result Map binds `"H"` to the handler's output. -/
theorem failure_handler_substitution_witness :
    executeStep stepRecovered [] 0 = (.ok "recovered", 1 + 1) ∧
      dictGet [("H", "recovered"), ("B", "bout")] "H" = some "recovered" := by
  have h := (failure_handler_substitution stepRecovered [stepBString] []
    (fun _ => "boom") (fun _ _ => .ok "recovered") rfl (fun _ => rfl)).1
    "recovered" rfl
  refine ⟨h.1, ?_⟩
  refine h.2.2 [("H", "recovered"), ("B", "bout")] ?_
    (by simp [stepRecovered, stepBString])
  rw [h.2.1]
  show (executeLoop [stepBString] (dictSet [] "H" "recovered") 1).1 =
    .ok [("H", "recovered"), ("B", "bout")]
  unfold executeLoop executeStep
  rfl


/-- C6 counterexample: retrieval over an empty index does not return the
"no context found" sentinel — `similarity_search` raises
`"Cannot search empty index"` before the sentinel branch is reachable, and
the error propagates out of `_process` (and `BaseAgent.execute`). -/
theorem retrieve_empty_index_counterexample :
    duProcess emptyStore3 (fun _ => [1, 0, 0]) (fun _ => .ok "assessment")
        { query := "q", k := 5 } = .error "Cannot search empty index" ∧
      duProcess emptyStore3 (fun _ => [1, 0, 0]) (fun _ => .ok "assessment")
        { query := "q", k := 5 } ≠ .ok noContextOutput := by
  have h : duProcess emptyStore3 (fun _ => [1, 0, 0]) (fun _ => .ok "assessment")
      { query := "q", k := 5 } = .error "Cannot search empty index" := by
    unfold duProcess similarity_search
    rfl
  rw [h]
  exact ⟨rfl, by simp⟩


/-- C6 (amended): retrieval on an index holding zero records fails — the
Similarity Index raises `"Cannot search empty index"` and the error
propagates to the caller of `_process`; the "no context found" sentinel
is returned only on the non-raising path whose formatted context string
is empty. -/
theorem retrieve_empty_index_raises (store : FAISSVectorStore)
    (embed : String → List ℚ) (llm : String → Except String String)
    (input : DUInput) (hempty : store.vectors.length = 0) :
    duProcess store embed llm input = .error "Cannot search empty index" := by
  have hs : similarity_search store (embed input.query) input.k =
      .error "Cannot search empty index" := by
    unfold similarity_search
    rw [if_pos hempty]
  simp only [duProcess, hs]


/-- Concrete instance of the amended C6: the empty dimension-3 store makes
retrieval raise. -/
theorem retrieve_empty_index_raises_witness :
    duProcess emptyStore3 (fun _ => [1, 0, 0]) (fun _ => .ok "assessment")
      { query := "business architecture", k := 5 } =
      .error "Cannot search empty index" :=
  retrieve_empty_index_raises emptyStore3 (fun _ => [1, 0, 0])
    (fun _ => .ok "assessment") { query := "business architecture", k := 5 } rfl


/-- Zipping an enumerated-and-mapped list with an index-generated list of
the same length pairs each element with the generator at its own index. -/
theorem zip_map_enumFrom_range {α β γ : Type} :
    ∀ (l : List α) (n : Nat) (f : Nat × α → β) (g : Nat → γ),
      ((l.enumFrom n).map f).zip ((List.range l.length).map (fun i => g (n + i))) =
        (l.enumFrom n).map (fun p => (f p, g p.1)) := by
  intro l
  induction l with
  | nil => intro n f g; rfl
  | cons a l ih =>
    intro n f g
    have hr : (List.range (l.length + 1)).map (fun i => g (n + i)) =
        g (n + 0) :: (List.range l.length).map (fun i => g ((n + 1) + i)) := by
      rw [List.range_succ_eq_map, List.map_cons, List.map_map]
      refine congrArg₂ _ rfl (List.map_congr_left fun i _ => ?_)
      simp only [Function.comp_apply, Nat.succ_eq_add_one]
      congr 1
      omega
    simp only [List.enumFrom, List.map_cons, List.length_cons, hr,
      List.zip_cons_cons, Nat.add_zero]
    rw [ih (n + 1) f g]


/-- The same pairing at offset `0`, phrased with `List.enum` and
`List.range` as they occur in the pipeline and the store. -/
theorem zip_map_enum_range {α β γ : Type} (l : List α) (f : Nat × α → β)
    (g : Nat → γ) :
    ((l.enum.map f)).zip ((List.range l.length).map g) =
      l.enum.map (fun p => (f p, g p.1)) := by
  have hg : (List.range l.length).map g =
      (List.range l.length).map (fun i => g (0 + i)) :=
    List.map_congr_left fun i _ => by rw [Nat.zero_add]
  rw [hg]
  exact zip_map_enumFrom_range l 0 f g


/-- `add_documents` on valid input: the store grows by the embeddings and
the id-stamped metadata in lock-step, and the generated identifiers come
back in insertion order. -/
theorem add_documents_eq (store : FAISSVectorStore)
    (embeddings : List (List ℚ)) (metadata : List Meta)
    (uuidGen : Nat → String)
    (hl : embeddings.length = metadata.length)
    (h0 : embeddings.length ≠ 0)
    (hdim : ∀ e ∈ embeddings, e.length = store.dimension) :
    add_documents store embeddings metadata uuidGen =
      .ok ({ dimension := store.dimension,
             vectors := store.vectors ++ embeddings,
             metadata := store.metadata ++
               (metadata.zip ((List.range embeddings.length).map uuidGen)).map
                 (fun p => dictSet p.1 "document_id" (MVal.s p.2)) },
           (List.range embeddings.length).map uuidGen) := by
  have hany : embeddings.any (fun e => decide (e.length ≠ store.dimension)) = false := by
    rw [List.any_eq_false]
    intro e he
    simpa using hdim e he
  unfold add_documents
  rw [if_neg (by omega : ¬ embeddings.length ≠ metadata.length),
    if_neg h0]
  simp only [hany, Bool.false_eq_true, if_false]


/-- C7 counterexample: ingesting document `"doc-1"` (one chunk) stores a
record whose metadata `document_id` is `"uuid-0"` — the fresh per-record
identifier `add_documents` stamps over the key — and not the ingested
document's identifier `"doc-1"` the pipeline had attached. -/
theorem ingestion_document_id_overwritten :
    ingest_document emptyStore2 tokBytes (fun cs => cs.map (fun _ => [1, 0]))
        (fun i => "uuid-" ++ toString i) (fun _ _ => .ok "hello")
        "doc-1" "f.txt" "text/plain" none =
      .ok ({ document_id := "doc-1", chunks_created := 1,
             embeddings_generated := 1, chunks_stored := 1, text_length := 5 },
           { dimension := 2, vectors := [[1, 0]],
             metadata := [[("document_id", MVal.s "uuid-0"),
                           ("chunk_index", MVal.n 0),
                           ("text", MVal.s "hello"),
                           ("content_type", MVal.s "text/plain"),
                           ("file_path", MVal.s "f.txt")]] },
           ["uuid-0"]) ∧
      MVal.s "uuid-0" ≠ MVal.s "doc-1" := by
  constructor
  · rfl
  · simp


/-- C7 (amended): for every ingestion (without additional metadata) that
proceeds past the empty-chunk check and whose embedding batch matches the
chunks in count and dimension, the pipeline attaches per-chunk metadata
`document_id` (the ingested document's identifier), `chunk_index`, the raw
chunk text, the content type and the source path — but the index then
stamps the freshly generated per-record identifier into each stored
record's metadata under the same `"document_id"` key, overwriting the
document's identifier: the stored record `i` carries
`document_id = uuidGen i`, and the generated identifiers come back in
insertion order. -/
theorem ingestion_metadata_stamping (store : FAISSVectorStore)
    (tok : Tokenizer) (embedSvc : List String → List (List ℚ))
    (uuidGen : Nat → String)
    (extract_text : String → String → Except String String)
    (docId fp ct text : String) (cs ov : Nat) (chunks : List String)
    (hex : extract_text fp ct = .ok text)
    (hchunks : chunk_text tok text cs ov = .ok chunks)
    (hne : chunks ≠ [])
    (hlen : (embedSvc chunks).length = chunks.length)
    (hdim : ∀ e ∈ embedSvc chunks, e.length = store.dimension) :
    ingest_document store tok embedSvc uuidGen extract_text docId fp ct none cs ov =
      .ok ({ document_id := docId, chunks_created := chunks.length,
             embeddings_generated := chunks.length,
             chunks_stored := chunks.length, text_length := text.length },
           { dimension := store.dimension,
             vectors := store.vectors ++ embedSvc chunks,
             metadata := store.metadata ++ chunks.enum.map (fun p =>
               [("document_id", MVal.s (uuidGen p.1)),
                ("chunk_index", MVal.n p.1),
                ("text", MVal.s p.2),
                ("content_type", MVal.s ct),
                ("file_path", MVal.s fp)]) },
           (List.range chunks.length).map uuidGen) := by
  have hlen0 : chunks.length ≠ 0 := fun h => hne (List.eq_nil_of_length_eq_zero h)
  let f : Nat × String → Meta := fun p =>
    [("document_id", MVal.s docId),
     ("chunk_index", MVal.n p.1),
     ("text", MVal.s p.2),
     ("content_type", MVal.s ct),
     ("file_path", MVal.s fp)]
  have hadd := add_documents_eq store (embedSvc chunks) (chunks.enum.map f)
    uuidGen (by simp [hlen]) (by rw [hlen]; exact hlen0) hdim
  have hzip : ((chunks.enum.map f).zip
        ((List.range (embedSvc chunks).length).map uuidGen)).map
        (fun p => dictSet p.1 "document_id" (MVal.s p.2)) =
      chunks.enum.map (fun p =>
        [("document_id", MVal.s (uuidGen p.1)),
         ("chunk_index", MVal.n p.1),
         ("text", MVal.s p.2),
         ("content_type", MVal.s ct),
         ("file_path", MVal.s fp)]) := by
    rw [hlen, zip_map_enum_range chunks f uuidGen, List.map_map]
    refine List.map_congr_left fun p _ => ?_
    simp [f, dictSet]
  rw [hzip] at hadd
  unfold ingest_document
  rw [hex]
  simp only [hchunks]
  rw [if_neg hlen0, hadd]
  simp only [List.length_map, List.length_range, hlen]


/-- Concrete instance of the amended C7: one chunk `"hello"` of document
`"doc-1"` is stored with `chunk_index`, text, content type, file path —
and `document_id` stamped to the fresh `"uuid-0"`. -/
theorem ingestion_metadata_stamping_witness :
    ingest_document emptyStore2 tokBytes (fun cs => cs.map (fun _ => [1, 0]))
        (fun i => "uuid-" ++ toString i) (fun _ _ => .ok "hello")
        "doc-1" "f.txt" "text/plain" none 512 50 =
      .ok ({ document_id := "doc-1", chunks_created := 1,
             embeddings_generated := 1, chunks_stored := 1, text_length := 5 },
           { dimension := 2, vectors := [[1, 0]],
             metadata := [[("document_id", MVal.s "uuid-0"),
                           ("chunk_index", MVal.n 0),
                           ("text", MVal.s "hello"),
                           ("content_type", MVal.s "text/plain"),
                           ("file_path", MVal.s "f.txt")]] },
           ["uuid-0"]) :=
  ingestion_metadata_stamping emptyStore2 tokBytes
    (fun cs => cs.map (fun _ => [1, 0])) (fun i => "uuid-" ++ toString i)
    (fun _ _ => .ok "hello") "doc-1" "f.txt" "text/plain" "hello" 512 50
    ["hello"] rfl rfl (by simp) rfl (by decide)


/-- C8: Search postcondition — on a non-empty index, for a query of the
index dimension and `k > 0`, `similarity_search` succeeds, clamps `k` to
the record count, returns results whose distances are non-decreasing, and
those results are the first `min k count` entries of a sorted permutation
of the exhaustive exact-squared-Euclidean-distance scan (hence the `k`
smallest-distance records).  In particular, inserting `[1,0,0]` and
`[0,1,0]` into a dimension-3 index and searching `[1,0,0]` with `k = 2`
returns the first record first with distance `0` (score `1`) and the
second with distance `2` (score `1/3`). -/
theorem search_postcondition (store : FAISSVectorStore) (query : List ℚ)
    (k : Nat) (hne : store.vectors.length ≠ 0) (hk : k ≠ 0)
    (hdim : query.length = store.dimension) :
    (∃ results, similarity_search store query k = .ok results ∧
      results.length = min k store.vectors.length ∧
      results.Pairwise (fun a b => a.distance ≤ b.distance) ∧
      ∃ sorted, sorted.Perm (store.vectors.enum.map
          (fun p => (sqDist query p.2, p.1))) ∧
        List.Sorted distLE sorted ∧
        results = (sorted.take (min k store.vectors.length)).map (mkResult store)) ∧
    (add_documents emptyStore3 [[1, 0, 0], [0, 1, 0]] [[], []]
        (fun i => "id-" ++ toString i) =
      .ok (scenarioStore, ["id-0", "id-1"]) ∧
      ∃ r0 r1, similarity_search scenarioStore [1, 0, 0] 2 = .ok [r0, r1] ∧
        r0.document_id = MVal.s "id-0" ∧ r0.distance = 0 ∧
        r1.document_id = MVal.s "id-1" ∧ r1.distance = 2) := by
  constructor
  · have hs : similarity_search store query k =
        .ok (((List.insertionSort distLE (store.vectors.enum.map
            (fun p => (sqDist query p.2, p.1)))).take
          (min k store.vectors.length)).map (mkResult store)) := by
      unfold similarity_search
      rw [if_neg hne, if_neg hk, if_neg (by omega : ¬ query.length ≠ store.dimension)]
    refine ⟨_, hs, ?_, ?_, ?_⟩
    · have hlen : (List.insertionSort distLE (store.vectors.enum.map
          (fun p => (sqDist query p.2, p.1)))).length = store.vectors.length := by
        rw [(List.perm_insertionSort distLE _).length_eq, List.length_map,
          List.enum_length]
      rw [List.length_map, List.length_take, hlen]
      omega
    · have hsorted : List.Sorted distLE (List.insertionSort distLE
          (store.vectors.enum.map (fun p => (sqDist query p.2, p.1)))) :=
        List.sorted_insertionSort distLE _
      have htake : (List.Sorted distLE ((List.insertionSort distLE
          (store.vectors.enum.map (fun p => (sqDist query p.2, p.1)))).take
            (min k store.vectors.length))) :=
        hsorted.sublist (List.take_sublist _ _)
      rw [List.pairwise_map]
      exact htake
    · exact ⟨_, List.perm_insertionSort distLE _,
        List.sorted_insertionSort distLE _, rfl⟩
  · refine ⟨rfl, ?_⟩
    have hscan : scenarioStore.vectors.enum.map
        (fun p => (sqDist [1, 0, 0] p.2, p.1)) = [(0, 0), (2, 1)] := by
      simp only [scenarioStore, List.enum, List.enumFrom, List.map_cons,
        List.map_nil]
      norm_num [sqDist]
    have hle : distLE ((0 : ℚ), (0 : Nat)) ((2 : ℚ), (1 : Nat)) := by
      simp only [distLE]
      norm_num
    have hsearch : similarity_search scenarioStore [1, 0, 0] 2 =
        .ok [mkResult scenarioStore (0, 0), mkResult scenarioStore (2, 1)] := by
      unfold similarity_search
      rw [if_neg (by simp [scenarioStore]),
        if_neg (by omega : ¬ (2 : Nat) = 0),
        if_neg (by simp [scenarioStore])]
      simp only [hscan]
      simp only [List.insertionSort, List.orderedInsert, if_pos hle]
      rfl
    refine ⟨mkResult scenarioStore (0, 0), mkResult scenarioStore (2, 1),
      hsearch, ?_, rfl, ?_, rfl⟩
    · simp [mkResult, scenarioStore, dictGet]
    · simp [mkResult, scenarioStore, dictGet]


/-- Concrete instance of C8 at the scenario index: searching `[1,0,0]`
with `k = 2` succeeds with the postcondition's shape. -/
theorem search_postcondition_witness :
    (∃ results, similarity_search scenarioStore [1, 0, 0] 2 = .ok results ∧
      results.length = min 2 scenarioStore.vectors.length ∧
      results.Pairwise (fun a b => a.distance ≤ b.distance) ∧
      ∃ sorted, sorted.Perm (scenarioStore.vectors.enum.map
          (fun p => (sqDist [1, 0, 0] p.2, p.1))) ∧
        List.Sorted distLE sorted ∧
        results = (sorted.take (min 2 scenarioStore.vectors.length)).map
          (mkResult scenarioStore)) ∧
    (add_documents emptyStore3 [[1, 0, 0], [0, 1, 0]] [[], []]
        (fun i => "id-" ++ toString i) =
      .ok (scenarioStore, ["id-0", "id-1"]) ∧
      ∃ r0 r1, similarity_search scenarioStore [1, 0, 0] 2 = .ok [r0, r1] ∧
        r0.document_id = MVal.s "id-0" ∧ r0.distance = 0 ∧
        r1.document_id = MVal.s "id-1" ∧ r1.distance = 2) :=
  search_postcondition scenarioStore [1, 0, 0] 2 (by simp [scenarioStore])
    (by omega) (by simp [scenarioStore])


/-- Window-count arithmetic: while the window at `start` ends strictly
before the token count, one more window is emitted at `start` than at
`start + step`. -/
theorem windowCount_step (L start cs step : Nat) (hstep : 0 < step)
    (hend : start + cs < L) :
    (L - start - cs + step - 1) / step + 1 =
      ((L - (start + step) - cs + step - 1) / step + 1) + 1 := by
  have h2 : L - (start + step) - cs = (L - start - cs) - step := by omega
  rw [h2]
  set A := L - start - cs with hA
  have hA1 : 1 ≤ A := by omega
  have e3 : A + step - 1 = (A - 1) + step := by omega
  have e4 : ((A - 1) + step) / step = (A - 1) / step + 1 := Nat.add_div_right _ hstep
  rcases le_or_lt A step with hA2 | hA2
  · have e1 : A - step + step - 1 = step - 1 := by omega
    have e2 : (step - 1) / step = 0 := Nat.div_eq_of_lt (by omega)
    have e5 : (A - 1) / step = 0 := Nat.div_eq_of_lt (by omega)
    rw [e3, e4, e5, e1, e2]
  · have e1 : A - step + step - 1 = (A - 1 - step) + step := by omega
    have e6 : ((A - 1 - step) + step) / step = (A - 1 - step) / step + 1 :=
      Nat.add_div_right _ hstep
    have e7 : (A - 1) / step = (A - 1 - step) / step + 1 := by
      conv_lhs => rw [(by omega : A - 1 = (A - 1 - step) + step)]
      exact e6
    rw [e3, e4, e7, e1, e6]


/-- The chunking loop started inside the token list emits exactly the
decoded windows at `start`, `start + step`, `start + 2·step`, …, the last
being the first whose end reaches or passes the token count. -/
theorem chunkLoop_map (tok : Tokenizer) (tokens : List Nat) (cs step : Nat)
    (hstep : 0 < step) (hsc : step ≤ cs) :
    ∀ fuel start, tokens.length - start ≤ fuel → start < tokens.length →
      chunkLoop tok tokens cs step hstep start =
        (List.range ((tokens.length - start - cs + step - 1) / step + 1)).map
          (fun j => tok.decode ((tokens.drop (start + j * step)).take cs)) := by
  intro fuel
  induction fuel with
  | zero => intro start h1 h2; omega
  | succ n ih =>
    intro start h1 h2
    unfold chunkLoop
    rw [dif_pos h2]
    by_cases hend : start + cs ≥ tokens.length
    · rw [if_pos hend]
      have hA : tokens.length - start - cs = 0 := by omega
      have hone : (tokens.length - start - cs + step - 1) / step + 1 = 1 := by
        rw [hA]
        have h0 : 0 + step - 1 = step - 1 := by omega
        rw [h0, Nat.div_eq_of_lt (by omega)]
      rw [hone, (by decide : List.range 1 = [0])]
      simp
    · rw [if_neg hend]
      push_neg at hend
      rw [ih (start + step) (by omega) (by omega)]
      conv_rhs => rw [windowCount_step tokens.length start cs step hstep hend,
        List.range_succ_eq_map]
      simp only [List.map_cons, List.map_map, Nat.zero_mul, Nat.add_zero]
      congr 1
      refine List.map_congr_left fun j _ => ?_
      simp only [Function.comp_apply, Nat.succ_eq_add_one]
      congr 3
      ring


/-- Every chunk the loop emits is the decoded window at some start index
strictly inside the token list; in particular its token window is
non-empty. -/
theorem chunkLoop_windows (tok : Tokenizer) (tokens : List Nat)
    (cs step : Nat) (hstep : 0 < step) (hcs : 0 < cs) :
    ∀ fuel start, tokens.length - start ≤ fuel →
      ∀ c ∈ chunkLoop tok tokens cs step hstep start,
        ∃ s, s < tokens.length ∧
          c = tok.decode ((tokens.drop s).take cs) ∧
          (tokens.drop s).take cs ≠ [] := by
  intro fuel
  induction fuel with
  | zero =>
    intro start h1 c hc
    unfold chunkLoop at hc
    rw [dif_neg (by omega)] at hc
    simp at hc
  | succ n ih =>
    intro start h1 c hc
    by_cases h2 : start < tokens.length
    · have hwin : (tokens.drop start).take cs ≠ [] := by
        intro hnil
        have hl := congrArg List.length hnil
        rw [List.length_take, List.length_drop] at hl
        simp at hl
        omega
      unfold chunkLoop at hc
      rw [dif_pos h2] at hc
      by_cases hend : start + cs ≥ tokens.length
      · rw [if_pos hend] at hc
        simp only [List.mem_singleton] at hc
        exact ⟨start, h2, hc, hwin⟩
      · rw [if_neg hend] at hc
        rcases List.mem_cons.mp hc with hc | hc
        · exact ⟨start, h2, hc, hwin⟩
        · exact ih (start + step) (by omega) c hc
    · unfold chunkLoop at hc
      rw [dif_neg h2] at hc
      simp at hc


/-- C10: Single-chunk identity — with valid parameters, a non-blank text
tokenizing to at most `chunk_size` tokens yields exactly one chunk that is
the original input string itself (not a decode of its token sequence),
and blank/whitespace-only input yields the empty chunk list, not an
error. -/
theorem single_chunk_identity (tok : Tokenizer) (text : String)
    (cs ov : Nat) (hcs : 0 < cs) (hov : ov < cs) :
    (isBlank text = false → (tok.encode text).length ≤ cs →
      chunk_text tok text cs ov = .ok [text]) ∧
    (isBlank text = true → chunk_text tok text cs ov = .ok []) := by
  constructor
  · intro hblank hlen
    unfold chunk_text
    rw [if_neg (by omega : ¬ cs ≤ 0), dif_neg (by omega : ¬ ov ≥ cs), hblank]
    simp only [Bool.false_eq_true, if_false]
    rw [if_pos hlen]
  · intro hblank
    unfold chunk_text
    rw [if_neg (by omega : ¬ cs ≤ 0), dif_neg (by omega : ¬ ov ≥ cs), hblank]
    simp


/-- Concrete instance of C10: `"hi"` tokenizes to 2 ≤ 5 tokens and comes
back untouched as the single chunk (while `tokBytes.decode` would have
returned a different string). -/
theorem single_chunk_identity_witness :
    chunk_text tokBytes "hi" 5 2 = .ok ["hi"] :=
  (single_chunk_identity tokBytes "hi" 5 2 (by omega) (by omega)).1 rfl
    (by decide)


/-- C9: Chunker windowing — for a non-blank text tokenizing to more than
`chunk_size` tokens (valid parameters), `chunk_text` emits exactly the
decoded windows of `chunk_size` tokens at starts `0, step, 2·step, …`
with `step = chunk_size - chunk_overlap`, stopping at the first window
whose end reaches or passes the token count; every emitted chunk decodes
a non-empty window (no empty trailing chunk); and a 600-token document
with `chunk_size = 512`, `overlap = 50` yields exactly the 2 chunks
decoding `tokens[0:512]` and `tokens[462:600]`. -/
theorem chunker_windowing (tok : Tokenizer) (text : String) (cs ov : Nat)
    (hcs : 0 < cs) (hov : ov < cs) (hblank : isBlank text = false)
    (hlen : cs < (tok.encode text).length) :
    chunk_text tok text cs ov =
      .ok ((List.range (((tok.encode text).length - cs + (cs - ov) - 1) /
          (cs - ov) + 1)).map
        (fun j => tok.decode (((tok.encode text).drop (j * (cs - ov))).take cs))) ∧
    (∀ c cl, chunk_text tok text cs ov = .ok cl → c ∈ cl →
      ∃ s, s < (tok.encode text).length ∧
        c = tok.decode (((tok.encode text).drop s).take cs) ∧
        ((tok.encode text).drop s).take cs ≠ []) ∧
    ((tok.encode text).length = 600 → cs = 512 → ov = 50 →
      chunk_text tok text cs ov =
        .ok [tok.decode ((tok.encode text).take 512),
             tok.decode ((tok.encode text).drop 462)]) := by
  have hloop : chunk_text tok text cs ov =
      .ok (chunkLoop tok (tok.encode text) cs (cs - ov) (by omega) 0) := by
    unfold chunk_text
    rw [if_neg (by omega : ¬ cs ≤ 0), dif_neg (by omega : ¬ ov ≥ cs), hblank]
    simp only [Bool.false_eq_true, if_false]
    rw [if_neg (by omega : ¬ (tok.encode text).length ≤ cs)]
  have hmap : chunkLoop tok (tok.encode text) cs (cs - ov) (by omega) 0 =
      (List.range (((tok.encode text).length - cs + (cs - ov) - 1) /
          (cs - ov) + 1)).map
        (fun j => tok.decode (((tok.encode text).drop (j * (cs - ov))).take cs)) := by
    have h := chunkLoop_map tok (tok.encode text) cs (cs - ov) (by omega)
      (by omega) (tok.encode text).length 0 (by omega) (by omega)
    rw [h, Nat.sub_zero]
    exact List.map_congr_left fun j _ => by rw [Nat.zero_add]
  refine ⟨by rw [hloop, hmap], ?_, ?_⟩
  · intro c cl hcl hc
    rw [hloop] at hcl
    injection hcl with hcl
    subst hcl
    exact chunkLoop_windows tok (tok.encode text) cs (cs - ov) (by omega)
      hcs (tok.encode text).length 0 (by omega) c hc
  · intro h600 h512 h50
    subst h512
    subst h50
    rw [hloop, hmap]
    have hcount : ((tok.encode text).length - 512 + (512 - 50) - 1) /
        (512 - 50) + 1 = 2 := by
      rw [h600]
    rw [hcount]
    have hrange : List.range 2 = [0, 1] := by decide
    rw [hrange]
    simp only [List.map_cons, List.map_nil, Nat.zero_mul, Nat.one_mul,
      List.drop_zero]
    have htake : ((tok.encode text).drop (512 - 50)).take 512 =
        (tok.encode text).drop 462 := by
      have : (512 : Nat) - 50 = 462 := by norm_num
      rw [this]
      exact List.take_of_length_le (by rw [List.length_drop, h600]; omega)
    rw [htake]


/-- Concrete instance of C9's scenario: the 600-token document with
`chunk_size = 512` and `overlap = 50` gives exactly the two windows
`tokens[0:512]` and `tokens[462:600]`. -/
theorem chunker_windowing_witness :
    chunk_text tok600 "x" 512 50 =
      .ok [tok600.decode ((tok600.encode "x").take 512),
           tok600.decode ((tok600.encode "x").drop 462)] :=
  (chunker_windowing tok600 "x" 512 50 (by omega) (by omega) rfl
    (by simp [tok600])).2.2 (by simp [tok600]) rfl rfl


end BlueprintX
